import Mathlib

/-
Verification development for the api/v2 types module of the avail-light
light client (src/api/v2/types.rs): the subscriber registry and its
publish/broadcast loop, the commitment hex codec, the versioned header
extension decoder, and the client-facing error type.

Modelling conventions:
  * machine integers (u16, u32) carry no arithmetic here and are embedded
    as Nat; raw bytes (u8) are Nat values, with a < 256 side condition
    stated where a property depends on it;
  * hashes (H256) and the compact data lookup are opaque values, embedded
    as Nat since the code only copies them through;
  * Rust strings are embedded as List Char (all strings that matter to the
    properties are ASCII, where byte length and char length agree);
  * the serde serializer for outbound publish messages is an explicit
    function parameter of publish, mirroring the TryFrom<PublishMessage>
    instance the loop invokes; being a Lean function it is deterministic,
    as serde_json serialization is;
  * tokio unbounded channels are embedded as a channel state: a map from
    channel id to a buffer plus a closed flag (closed = receiver dropped);
    a send to a closed channel leaves the buffer unchanged and reports
    failure, which the publish loop discards.
-/

namespace V2

abbrev H256 := Nat

abbrev CompactDataLookup := Nat


/-- kate_recovery config::COMMITMENT_SIZE. -/
def COMMITMENT_SIZE : Nat := 48

/-- A commitment: in the source a [u8; COMMITMENT_SIZE] array. -/
structure Commitment where
  bytes : List Nat
deriving DecidableEq, Repr

/-- Value of one hex digit, as the hex crate's val function, which matches
on the byte ranges A-F, a-f and 0-9 in that order: uppercase and lowercase
digits are both accepted. -/
def hexVal (c : Char) : Option Nat :=
  if 'A' ≤ c ∧ c ≤ 'F' then some (c.toNat - 'A'.toNat + 10)
  else if 'a' ≤ c ∧ c ≤ 'f' then some (c.toNat - 'a'.toNat + 10)
  else if '0' ≤ c ∧ c ≤ '9' then some (c.toNat - '0'.toNat)
  else none

/-- Lowercase hex digit for a value below 16, as hex::encode's table. -/
def hexDigit (v : Nat) : Char :=
  match v with
  | 0 => '0'
  | 1 => '1'
  | 2 => '2'
  | 3 => '3'
  | 4 => '4'
  | 5 => '5'
  | 6 => '6'
  | 7 => '7'
  | 8 => '8'
  | 9 => '9'
  | 10 => 'a'
  | 11 => 'b'
  | 12 => 'c'
  | 13 => 'd'
  | 14 => 'e'
  | _ => 'f'

/-- hex::encode, lowercase, two digits per byte. -/
def hexEncode : List Nat → List Char
  | [] => []
  | b :: bs => hexDigit (b / 16) :: hexDigit (b % 16) :: hexEncode bs

/-- Body of hex::decode: consume the characters two at a time. -/
def hexDecodePairs : List Char → Except String (List Nat)
  | [] => .ok []
  | [_] => .error "Odd number of digits"
  | c1 :: c2 :: rest =>
    match hexVal c1, hexVal c2 with
    | some h, some l =>
      match hexDecodePairs rest with
      | .ok bs => .ok ((h * 16 + l) :: bs)
      | .error e => .error e
    | _, _ => .error "Invalid character"

/-- hex::decode: reject odd input length, then decode pairs of digits. -/
def hexDecode (l : List Char) : Except String (List Nat) :=
  if l.length % 2 = 1 then .error "Odd number of digits"
  else hexDecodePairs l

/-- Serialize for Commitment: the string 0x followed by lowercase hex. -/
def commitmentSerialize (c : Commitment) : List Char :=
  '0' :: 'x' :: hexEncode c.bytes

/-- Does the string start with the two characters 0x, as str::starts_with. -/
def startsWith0x : List Char → Bool
  | c1 :: c2 :: _ => c1 = '0' && c2 = 'x'
  | _ => false

/-- Deserialize for Commitment: require the 0x head and exact length
2 * COMMITMENT_SIZE + 2, hex-decode the rest, require exactly
COMMITMENT_SIZE decoded bytes. -/
def commitmentDeserialize (s : List Char) : Except String Commitment :=
  if startsWith0x s = false ∨ s.length ≠ COMMITMENT_SIZE * 2 + 2 then
    .error "Expected a hex string of correct length with 0x prefix"
  else
    match hexDecode (s.drop 2) with
    | .error e => .error e
    | .ok decoded =>
      if decoded.length = COMMITMENT_SIZE then .ok (Commitment.mk decoded)
      else .error "Expected vector of 48 bytes"

/-- Kate commitment block of the V1 wire variant: data_root always present. -/
structure KateCommitmentV1 where
  rows : Nat
  cols : Nat
  data_root : H256
  commitment : List Nat
deriving DecidableEq, Repr

/-- V1 wire variant of the header extension. -/
structure ExtensionV1 where
  app_lookup : CompactDataLookup
  commitment : KateCommitmentV1
deriving DecidableEq, Repr

/-- Kate commitment block of the V2 wire variant: data_root optional. -/
structure KateCommitmentV2 where
  rows : Nat
  cols : Nat
  data_root : Option H256
  commitment : List Nat
deriving DecidableEq, Repr

/-- V2 wire variant of the header extension. -/
structure ExtensionV2 where
  app_lookup : CompactDataLookup
  commitment : KateCommitmentV2
deriving DecidableEq, Repr

/-- The raw, version-tagged header extension from the wire. -/
inductive HeaderExtension where
  | V1 (v1 : ExtensionV1)
  | V2 (v2 : ExtensionV2)
deriving DecidableEq, Repr

/-- Split a byte list into COMMITMENT_SIZE-sized chunks, fuelled so the
recursion is structural (the fuel bounds the number of chunks; each step
consumes at least one byte, so fuel = length is always enough). -/
def chunks48Fuel : Nat → List Nat → List (List Nat)
  | _, [] => []
  | 0, _ :: _ => []
  | fuel + 1, x :: xs =>
    (x :: xs).take COMMITMENT_SIZE :: chunks48Fuel fuel ((x :: xs).drop COMMITMENT_SIZE)

/-- Split a byte list into COMMITMENT_SIZE-sized chunks. -/
def chunks48 (l : List Nat) : List (List Nat) :=
  chunks48Fuel l.length l

/-- Modelled from the spec: the commitment codec (kate_recovery
commitments::from_slice, an external crate not present under src/).
Per the spec it splits the input into fixed-size chunks of the commitment
size and fails with a length error when the input length is not a multiple
of that size. -/
def from_slice (source : List Nat) : Except String (List (List Nat)) :=
  if source.length % COMMITMENT_SIZE = 0 then .ok (chunks48 source)
  else .error "Invalid commitments length"

/-- The normalized in-memory header extension. -/
structure Extension where
  rows : Nat
  cols : Nat
  data_root : Option H256
  commitments : List Commitment
  app_lookup : CompactDataLookup
deriving DecidableEq, Repr

/-- TryFrom HeaderExtension for Extension: dispatch on the variant tag,
delegate the flat commitment bytes to the commitment codec, copy rows,
cols and app_lookup through, and set data_root to the always-present V1
value or the optional V2 value. -/
def Extension.tryFromHeaderExtension (value : HeaderExtension) : Except String Extension :=
  match value with
  | .V1 v1 =>
    match from_slice v1.commitment.commitment with
    | .error e => .error e
    | .ok cs =>
      .ok { rows := v1.commitment.rows
            cols := v1.commitment.cols
            data_root := some v1.commitment.data_root
            commitments := cs.map Commitment.mk
            app_lookup := v1.app_lookup }
  | .V2 v2 =>
    match from_slice v2.commitment.commitment with
    | .error e => .error e
    | .ok cs =>
      .ok { rows := v2.commitment.rows
            cols := v2.commitment.cols
            data_root := v2.commitment.data_root
            commitments := cs.map Commitment.mk
            app_lookup := v2.app_lookup }

/-- Raw rows field of either wire variant. -/
def HeaderExtension.rawRows : HeaderExtension → Nat
  | .V1 v1 => v1.commitment.rows
  | .V2 v2 => v2.commitment.rows

/-- Raw cols field of either wire variant. -/
def HeaderExtension.rawCols : HeaderExtension → Nat
  | .V1 v1 => v1.commitment.cols
  | .V2 v2 => v2.commitment.cols

/-- Raw flat commitment bytes of either wire variant. -/
def HeaderExtension.rawCommitment : HeaderExtension → List Nat
  | .V1 v1 => v1.commitment.commitment
  | .V2 v2 => v2.commitment.commitment

/-- Raw app_lookup field of either wire variant. -/
def HeaderExtension.rawAppLookup : HeaderExtension → CompactDataLookup
  | .V1 v1 => v1.app_lookup
  | .V2 v2 => v2.app_lookup

/-- The data root the decoder must produce: the always-present V1 value,
or the optional V2 value passed through. -/
def HeaderExtension.rawDataRoot : HeaderExtension → Option H256
  | .V1 v1 => some v1.commitment.data_root
  | .V2 v2 => v2.commitment.data_root

/-- The normalized header carried in an outbound header-verified message. -/
structure Header where
  hash : H256
  parent_hash : H256
  number : Nat
  state_root : H256
  extrinsics_root : H256
  extension : Extension
deriving DecidableEq, Repr

/-- Payload of a header-verified broadcast. -/
structure HeaderMessage where
  block_number : Nat
  header : Header
deriving DecidableEq, Repr

/-- Outbound broadcast message (currently only header-verified). -/
inductive PublishMessage where
  | HeaderVerified (m : HeaderMessage)
deriving DecidableEq, Repr

/-- Topics a client can subscribe to. -/
inductive Topic where
  | HeaderVerified
  | ConfidenceAchieved
  | DataVerified
deriving DecidableEq, Repr

/-- Data-field interest options, informational to the registry. -/
inductive DataField where
  | Data
  | Extrinsic
deriving DecidableEq, Repr

/-- A client subscription: a set of topics and a set of data fields
(HashSet contents embedded as lists, membership is what matters). -/
structure Subscription where
  topics : List Topic
  data_fields : List DataField
deriving DecidableEq, Repr

/-- A serialized outbound frame (ws::Message::text contents). -/
abbrev Message := String

/-- An outbound channel handle (tokio UnboundedSender): identified by the
channel it feeds. -/
structure Sender where
  chan : Nat
deriving DecidableEq, Repr

/-- One registry entry: a subscription plus an optional outbound channel. -/
structure WsClient where
  subscription : Subscription
  sender : Option Sender
deriving DecidableEq, Repr

/-- WsClient::new: a fresh entry is unattached. -/
def WsClient.new (subscription : Subscription) : WsClient :=
  { subscription := subscription, sender := none }

/-- WsClient::is_subscribed: topic membership in the subscription. -/
def WsClient.is_subscribed (c : WsClient) (topic : Topic) : Bool :=
  c.subscription.topics.contains topic

/-- The registry map contents (HashMap String WsClient embedded as an
association list; the wrapping Arc RwLock is the concurrency shell, the
operations below are what runs under the lock). -/
abbrev Registry := List (String × WsClient)

/-- First-match lookup in the registry, as HashMap::get. -/
def mapLookup : Registry → String → Option WsClient
  | [], _ => none
  | (k, v) :: rest, key => if k = key then some v else mapLookup rest key

/-- HashMap::insert: replace the entry under the key, or add one. -/
def mapInsert : Registry → String → WsClient → Registry
  | [], key, v => [(key, v)]
  | (k, w) :: rest, key, v =>
    if k = key then (key, v) :: rest else (k, w) :: mapInsert rest key v

/-- WsClients::subscribe: insert a fresh unattached entry under the id. -/
def WsClients.subscribe (clients : Registry) (subscription_id : String)
    (subscription : Subscription) : Registry :=
  mapInsert clients subscription_id (WsClient.new subscription)

/-- WsClients::has_subscription: key existence. -/
def WsClients.has_subscription (clients : Registry) (subscription_id : String) : Bool :=
  (mapLookup clients subscription_id).isSome

/-- WsClients::set_sender: set the sender of the existing entry and return
true, or return false leaving the registry unchanged when the id is
unknown. -/
def WsClients.set_sender : Registry → String → Sender → Registry × Bool
  | [], _, _ => ([], false)
  | (k, c) :: rest, subscription_id, sender =>
    if k = subscription_id then
      ((k, { c with sender := some sender }) :: rest, true)
    else
      let r := WsClients.set_sender rest subscription_id sender
      ((k, c) :: r.1, r.2)

/-- The publish loop, instrumented with the number of serialization calls
it makes. For each entry in iteration order: skip entries not subscribed
to the topic; serialize the message (the try_into call sits inside the
loop, so it runs once per matching entry) and abort the whole call on a
serialization error; when a sender is attached record a send event, and
when none is attached skip silently. The result of each send is discarded
by the loop, so the send events are returned for the channel layer to
apply. -/
def WsClients.publishRun (clients : Registry) (topic : Topic)
    (tryInto : PublishMessage → Except String Message) (message : PublishMessage) :
    Except String (List (Sender × Message)) × Nat :=
  match clients with
  | [] => (.ok [], 0)
  | (_, client) :: rest =>
    if !(client.is_subscribed topic) then
      WsClients.publishRun rest topic tryInto message
    else
      match tryInto message with
      | .error e => (.error e, 1)
      | .ok m =>
        let r := WsClients.publishRun rest topic tryInto message
        match r.1 with
        | .error e => (.error e, r.2 + 1)
        | .ok evs =>
          match client.sender with
          | some sender => (.ok ((sender, m) :: evs), r.2 + 1)
          | none => (.ok evs, r.2 + 1)

/-- WsClients::publish: the loop runs under a read lock and performs no
mutation of the map, so the registry comes back as it went in, together
with either the list of send events or the serialization error. -/
def WsClients.publish (clients : Registry) (topic : Topic)
    (tryInto : PublishMessage → Except String Message) (message : PublishMessage) :
    Registry × Except String (List (Sender × Message)) :=
  (clients, (WsClients.publishRun clients topic tryInto message).1)

/-- State of one unbounded channel: its buffered frames and whether the
receiving end is gone. -/
structure Chan where
  closed : Bool
  buf : List Message
deriving DecidableEq, Repr

/-- All channel states, keyed by channel id. -/
abbrev ChanState := List (Nat × Chan)

/-- Lookup of one channel's state. -/
def chanLookup : ChanState → Nat → Option Chan
  | [], _ => none
  | (k, ch) :: rest, cid => if k = cid then some ch else chanLookup rest cid

/-- UnboundedSender::send: append to the buffer of an open channel and
report success; fail without effect when the channel is closed or gone. -/
def chanSend : ChanState → Nat → Message → ChanState × Bool
  | [], _, _ => ([], false)
  | (k, ch) :: rest, cid, m =>
    if k = cid then
      if ch.closed then ((k, ch) :: rest, false)
      else ((k, { ch with buf := ch.buf ++ [m] }) :: rest, true)
    else
      let r := chanSend rest cid m
      ((k, ch) :: r.1, r.2)

/-- Apply the send events of a publish call to the channels, discarding
each send's success flag as the loop does. -/
def applyEvents (st : ChanState) (evs : List (Sender × Message)) : ChanState :=
  evs.foldl (fun acc e => (chanSend acc e.1.chan e.2).1) st

/-- A channel is open when it exists and its receiver is still there. -/
def chanOpen (st : ChanState) (cid : Nat) : Bool :=
  match chanLookup st cid with
  | some ch => !ch.closed
  | none => false

/-- The frames buffered in a channel. -/
def chanBuf (st : ChanState) (cid : Nat) : List Message :=
  match chanLookup st cid with
  | some ch => ch.buf
  | none => []

/-- Specification-side description of publish's deliveries: one event per
registered entry whose subscription contains the topic and which has an
attached sender, carrying the serialized form. -/
def matchingEvents (clients : Registry) (topic : Topic) (m : Message) :
    List (Sender × Message) :=
  clients.filterMap (fun p =>
    if p.2.is_subscribed topic then p.2.sender.map (fun s => (s, m)) else none)

/-- Request correlation id (uuid), carried opaquely. -/
abbrev Uuid := String

/-- Internal diagnostic cause (anyhow::Error), carried opaquely. -/
abbrev Cause := String

/-- Client-facing error codes. -/
inductive ErrorCode where
  | NotFound
  | BadRequest
  | InternalServerError
deriving DecidableEq, Repr

/-- The client-facing error value. The cause field is marked serde(skip)
in the source and the request_id field skip_serializing_if None. -/
structure Error where
  request_id : Option Uuid
  cause : Option Cause
  error_code : ErrorCode
  message : String
deriving DecidableEq, Repr

/-- Error::new. -/
def Error.new (request_id : Option Uuid) (cause : Option Cause)
    (error_code : ErrorCode) (message : String) : Error :=
  { request_id := request_id, cause := cause, error_code := error_code,
    message := message }

/-- Error::not_found. -/
def Error.not_found : Error :=
  Error.new none none .NotFound "Not Found"

/-- Error::internal_server_error: keeps the cause internally, exposes only
the fixed generic message. -/
def Error.internal_server_error (cause : Cause) : Error :=
  Error.new none (some cause) .InternalServerError "Internal Server Error"

/-- Error::bad_request_unknown: no request id could be extracted. -/
def Error.bad_request_unknown (message : String) : Error :=
  Error.new none none .BadRequest message

/-- Error::bad_request: echoes the parsed request id. -/
def Error.bad_request (request_id : Uuid) (message : String) : Error :=
  Error.new (some request_id) none .BadRequest message

/-- kebab-case rendering of an error code, per serde rename_all. -/
def ErrorCode.serialized : ErrorCode → String
  | .NotFound => "not-found"
  | .BadRequest => "bad-request"
  | .InternalServerError => "internal-server-error"

/-- serde serialization of Error as its field list, in declaration order:
request_id is emitted only when present, cause is never emitted
(serde(skip)), error_code and message always are. -/
def Error.serialize (e : Error) : List (String × String) :=
  (match e.request_id with
   | some rid => [("request_id", rid)]
   | none => []) ++
  [("error_code", e.error_code.serialized), ("message", e.message)]

theorem mapLookup_mapInsert_self (m : Registry) (k : String) (v : WsClient) :
    mapLookup (mapInsert m k v) k = some v := by
  induction m with
  | nil => simp [mapInsert, mapLookup]
  | cons hd t ih =>
    obtain ⟨k1, v1⟩ := hd
    by_cases hk : k1 = k
    · simp [mapInsert, hk, mapLookup]
    · simp [mapInsert, hk, mapLookup, ih]

theorem publishRun_ok (clients : Registry) (topic : Topic)
    (tryInto : PublishMessage → Except String Message) (message : PublishMessage)
    (m : Message) (h : tryInto message = .ok m) :
    (WsClients.publishRun clients topic tryInto message).1 =
      .ok (matchingEvents clients topic m) := by
  induction clients with
  | nil => simp [WsClients.publishRun, matchingEvents]
  | cons hd t ih =>
    obtain ⟨k, client⟩ := hd
    by_cases hs : client.is_subscribed topic
    · cases hsd : client.sender <;>
        simp [WsClients.publishRun, hs, h, hsd, matchingEvents, ih]
    · simp [WsClients.publishRun, hs, matchingEvents, ih]

theorem publishRun_count_ok (clients : Registry) (topic : Topic)
    (tryInto : PublishMessage → Except String Message) (message : PublishMessage)
    (m : Message) (h : tryInto message = .ok m) :
    (WsClients.publishRun clients topic tryInto message).2 =
      (clients.filter (fun p => p.2.is_subscribed topic)).length := by
  induction clients with
  | nil => simp [WsClients.publishRun]
  | cons hd t ih =>
    obtain ⟨k, client⟩ := hd
    by_cases hs : client.is_subscribed topic
    · have hok := publishRun_ok t topic tryInto message m h
      cases hsd : client.sender <;>
        simp [WsClients.publishRun, hs, h, hok, hsd, ih]
    · simp [WsClients.publishRun, hs, ih]

theorem publishRun_error_of_match (clients : Registry) (topic : Topic)
    (tryInto : PublishMessage → Except String Message) (message : PublishMessage)
    (e : String) (h : tryInto message = .error e)
    (hany : clients.any (fun p => p.2.is_subscribed topic) = true) :
    (WsClients.publishRun clients topic tryInto message).1 = .error e := by
  induction clients with
  | nil => simp at hany
  | cons hd t ih =>
    obtain ⟨k, client⟩ := hd
    cases hs : client.is_subscribed topic with
    | true => simp [WsClients.publishRun, hs, h]
    | false =>
      simp only [List.any_cons, hs, Bool.false_or] at hany
      simp [WsClients.publishRun, hs, ih hany]

theorem publishRun_no_match (clients : Registry) (topic : Topic)
    (tryInto : PublishMessage → Except String Message) (message : PublishMessage)
    (hnone : clients.any (fun p => p.2.is_subscribed topic) = false) :
    WsClients.publishRun clients topic tryInto message = (.ok [], 0) := by
  induction clients with
  | nil => simp [WsClients.publishRun]
  | cons hd t ih =>
    obtain ⟨k, client⟩ := hd
    simp only [List.any_cons, Bool.or_eq_false_iff] at hnone
    simp [WsClients.publishRun, hnone.1, ih hnone.2]

theorem mem_matchingEvents (clients : Registry) (topic : Topic) (m : Message)
    (s : Sender) (p : String × WsClient) (hp : p ∈ clients)
    (hsub : p.2.is_subscribed topic = true) (hsd : p.2.sender = some s) :
    (s, m) ∈ matchingEvents clients topic m := by
  simp only [matchingEvents, List.mem_filterMap]
  exact ⟨p, hp, by simp [hsub, hsd]⟩

theorem chanLookup_chanSend (st : ChanState) (cid : Nat) (m : Message) (q : Nat) :
    chanLookup (chanSend st cid m).1 q =
      if q = cid then
        (chanLookup st cid).map
          (fun ch => if ch.closed then ch else { ch with buf := ch.buf ++ [m] })
      else chanLookup st q := by
  induction st with
  | nil => by_cases hq : q = cid <;> simp [chanSend, chanLookup, hq]
  | cons hd t ih =>
    obtain ⟨k, ch⟩ := hd
    by_cases hk : k = cid
    · subst hk
      by_cases hq : q = k
      · cases hcl : ch.closed <;> simp [chanSend, chanLookup, hq, hcl]
      · have hq2 : ¬ k = q := fun h => hq (Eq.symm h)
        cases hcl : ch.closed <;> simp [chanSend, chanLookup, hq, hq2, hcl]
    · by_cases hq : q = k
      · subst hq
        simp [chanSend, chanLookup, hk, ih]
      · have hq2 : ¬ k = q := fun h => hq (Eq.symm h)
        simp [chanSend, chanLookup, hk, hq, hq2, ih]

theorem chanOpen_chanSend (st : ChanState) (cid : Nat) (m : Message) (q : Nat) :
    chanOpen (chanSend st cid m).1 q = chanOpen st q := by
  by_cases hq : q = cid
  · subst hq
    cases hl : chanLookup st q with
    | none => simp [chanOpen, chanLookup_chanSend, hl]
    | some ch => cases hcl : ch.closed <;> simp [chanOpen, chanLookup_chanSend, hl, hcl]
  · simp [chanOpen, chanLookup_chanSend, hq]

theorem mem_chanBuf_chanSend (st : ChanState) (cid : Nat) (m : Message) (q : Nat)
    (x : Message) (hx : x ∈ chanBuf st q) : x ∈ chanBuf (chanSend st cid m).1 q := by
  by_cases hq : q = cid
  · subst hq
    cases hl : chanLookup st q with
    | none => simp [chanBuf, hl] at hx
    | some ch =>
      cases hcl : ch.closed <;>
        simp_all [chanBuf, chanLookup_chanSend, hl, hcl]
  · simpa [chanBuf, chanLookup_chanSend, hq] using hx

theorem chanBuf_chanSend_open (st : ChanState) (cid : Nat) (m : Message)
    (hopen : chanOpen st cid = true) :
    chanBuf (chanSend st cid m).1 cid = chanBuf st cid ++ [m] := by
  cases hl : chanLookup st cid with
  | none => simp [chanOpen, hl] at hopen
  | some ch =>
    have hcl : ch.closed = false := by
      cases hc : ch.closed <;> simp_all [chanOpen, hl]
    simp [chanBuf, chanLookup_chanSend, hl, hcl]

theorem chanOpen_applyEvents (st : ChanState) (evs : List (Sender × Message)) (q : Nat) :
    chanOpen (applyEvents st evs) q = chanOpen st q := by
  induction evs generalizing st with
  | nil => simp [applyEvents]
  | cons e rest ih =>
    simp only [applyEvents, List.foldl_cons] at ih ⊢
    rw [ih, chanOpen_chanSend]

theorem mem_chanBuf_applyEvents (st : ChanState) (evs : List (Sender × Message)) (q : Nat)
    (x : Message) (hx : x ∈ chanBuf st q) : x ∈ chanBuf (applyEvents st evs) q := by
  induction evs generalizing st with
  | nil => simpa [applyEvents] using hx
  | cons e rest ih =>
    simp only [applyEvents, List.foldl_cons] at ih ⊢
    exact ih _ (mem_chanBuf_chanSend st e.1.chan e.2 q x hx)

theorem applyEvents_delivers (st : ChanState) (evs : List (Sender × Message))
    (s : Sender) (m : Message) (hmem : (s, m) ∈ evs)
    (hopen : chanOpen st s.chan = true) :
    m ∈ chanBuf (applyEvents st evs) s.chan := by
  induction evs generalizing st with
  | nil => simp at hmem
  | cons e rest ih =>
    simp only [applyEvents, List.foldl_cons] at ih ⊢
    rcases List.mem_cons.mp hmem with he | hrest
    · subst he
      refine mem_chanBuf_applyEvents _ rest _ m ?_
      rw [chanBuf_chanSend_open st s.chan m hopen]
      simp
    · refine ih _ hrest ?_
      rw [chanOpen_chanSend]
      exact hopen

theorem char_le_toNat {a b : Char} (h : a ≤ b) : a.toNat ≤ b.toNat := h

theorem char_toNat_inj {a b : Char} (h : a.toNat = b.toNat) : a = b :=
  Char.ext (UInt32.ext h)

theorem hexVal_lt (c : Char) (v : Nat) (h : hexVal c = some v) : v < 16 := by
  unfold hexVal at h
  split_ifs at h with h1 h2 h3 <;> injection h with h <;> subst h
  · have t : c.toNat ≤ 70 := char_le_toNat h1.2
    have hA : ('A' : Char).toNat = 65 := rfl
    omega
  · have t : c.toNat ≤ 102 := char_le_toNat h2.2
    have ha : ('a' : Char).toNat = 97 := rfl
    omega
  · have t : c.toNat ≤ 57 := char_le_toNat h3.2
    have h0 : ('0' : Char).toNat = 48 := rfl
    omega

theorem hexVal_hexDigit (v : Nat) (h : v < 16) : hexVal (hexDigit v) = some v := by
  interval_cases v <;> rfl

theorem hexDigit_hexVal (c : Char) (v : Nat) (h : hexVal c = some v)
    (hup : ¬('A' ≤ c ∧ c ≤ 'F')) : hexDigit v = c := by
  unfold hexVal at h
  split_ifs at h with h1 h2 <;> injection h with h <;> subst h
  · apply char_toNat_inj
    have t1 : 97 ≤ c.toNat := char_le_toNat h1.1
    have t2 : c.toNat ≤ 102 := char_le_toNat h1.2
    have hd : c.toNat = 97 ∨ c.toNat = 98 ∨ c.toNat = 99 ∨ c.toNat = 100 ∨
        c.toNat = 101 ∨ c.toNat = 102 := by omega
    rcases hd with h | h | h | h | h | h <;> rw [h] <;> rfl
  · apply char_toNat_inj
    have t1 : 48 ≤ c.toNat := char_le_toNat h2.1
    have t2 : c.toNat ≤ 57 := char_le_toNat h2.2
    have hd : c.toNat = 48 ∨ c.toNat = 49 ∨ c.toNat = 50 ∨ c.toNat = 51 ∨
        c.toNat = 52 ∨ c.toNat = 53 ∨ c.toNat = 54 ∨ c.toNat = 55 ∨
        c.toNat = 56 ∨ c.toNat = 57 := by omega
    rcases hd with h | h | h | h | h | h | h | h | h | h <;> rw [h] <;> rfl

theorem hexEncode_length (bs : List Nat) : (hexEncode bs).length = 2 * bs.length := by
  induction bs with
  | nil => simp [hexEncode]
  | cons b t ih => simp [hexEncode, ih]; omega

theorem hexDecodePairs_hexEncode (bs : List Nat) (h : ∀ b ∈ bs, b < 256) :
    hexDecodePairs (hexEncode bs) = .ok bs := by
  induction bs with
  | nil => simp [hexEncode, hexDecodePairs]
  | cons b t ih =>
    have hb : b < 256 := h b (by simp)
    have h1 : b / 16 < 16 := by omega
    have h2 : b % 16 < 16 := by omega
    have ht := ih (fun x hx => h x (by simp [hx]))
    simp only [hexEncode, hexDecodePairs, hexVal_hexDigit _ h1, hexVal_hexDigit _ h2, ht]
    have : b / 16 * 16 + b % 16 = b := by omega
    rw [this]

theorem hexDecode_hexEncode (bs : List Nat) (h : ∀ b ∈ bs, b < 256) :
    hexDecode (hexEncode bs) = .ok bs := by
  unfold hexDecode
  rw [hexEncode_length, if_neg (by omega)]
  exact hexDecodePairs_hexEncode bs h

theorem hexEncode_hexDecodePairs : ∀ (l : List Char) (bs : List Nat),
    hexDecodePairs l = .ok bs → (∀ c ∈ l, ¬('A' ≤ c ∧ c ≤ 'F')) → hexEncode bs = l
  | [], bs, h, _ => by
    simp only [hexDecodePairs] at h
    injection h with h
    subst h
    rfl
  | [c], bs, h, _ => by
    simp [hexDecodePairs] at h
  | c1 :: c2 :: rest, bs, h, hup => by
    cases h1 : hexVal c1 with
    | none => simp [hexDecodePairs, h1] at h
    | some hv =>
      cases h2 : hexVal c2 with
      | none => simp [hexDecodePairs, h1, h2] at h
      | some lv =>
        cases hr : hexDecodePairs rest with
        | error e => simp [hexDecodePairs, h1, h2, hr] at h
        | ok tl =>
          simp only [hexDecodePairs, h1, h2, hr] at h
          injection h with h
          subst h
          have hlt1 := hexVal_lt c1 hv h1
          have hlt2 := hexVal_lt c2 lv h2
          have e1 : (hv * 16 + lv) / 16 = hv := by omega
          have e2 : (hv * 16 + lv) % 16 = lv := by omega
          have ih := hexEncode_hexDecodePairs rest tl hr
            (fun c hc => hup c (by simp [hc]))
          simp only [hexEncode, e1, e2, ih]
          rw [hexDigit_hexVal c1 hv h1 (hup c1 (by simp)),
            hexDigit_hexVal c2 lv h2 (hup c2 (by simp))]

theorem hexDecodePairs_ok_iff : ∀ l : List Char,
    (∃ bs, hexDecodePairs l = .ok bs) ↔
      (l.length % 2 = 0 ∧ ∀ c ∈ l, (hexVal c).isSome)
  | [] => by simp [hexDecodePairs]
  | [c] => by simp [hexDecodePairs]
  | c1 :: c2 :: rest => by
    have ih := hexDecodePairs_ok_iff rest
    cases h1 : hexVal c1 with
    | none => simp [hexDecodePairs, h1]
    | some hv =>
      cases h2 : hexVal c2 with
      | none => simp [hexDecodePairs, h1, h2]
      | some lv =>
        cases hr : hexDecodePairs rest with
        | error e =>
          simp only [hexDecodePairs, h1, h2, hr]
          constructor
          · rintro ⟨bs, hbs⟩
            exact Except.noConfusion hbs
          · rintro ⟨hlen, hall⟩
            have : ∃ bs, hexDecodePairs rest = .ok bs := by
              refine ih.mpr ⟨?_, fun c hc => hall c (by simp [hc])⟩
              simp only [List.length_cons] at hlen
              omega
            rw [hr] at this
            obtain ⟨bs, hbs⟩ := this
            exact Except.noConfusion hbs
        | ok tl =>
          simp only [hexDecodePairs, h1, h2, hr]
          constructor
          · rintro -
            refine ⟨?_, ?_⟩
            · have hr2 : rest.length % 2 = 0 := (ih.mp ⟨tl, hr⟩).1
              simp only [List.length_cons]
              omega
            · intro c hc
              rcases List.mem_cons.mp hc with rfl | hc2
              · simp [h1]
              · rcases List.mem_cons.mp hc2 with rfl | hc3
                · simp [h2]
                · exact (ih.mp ⟨tl, hr⟩).2 c hc3
          · rintro -
            exact ⟨_, rfl⟩

theorem hexDecodePairs_length : ∀ (l : List Char) (bs : List Nat),
    hexDecodePairs l = .ok bs → l.length = 2 * bs.length
  | [], bs, h => by
    simp [hexDecodePairs] at h
    simp [← h]
  | [c], bs, h => by
    simp [hexDecodePairs] at h
  | c1 :: c2 :: rest, bs, h => by
    cases h1 : hexVal c1 with
    | none => simp [hexDecodePairs, h1] at h
    | some hv =>
      cases h2 : hexVal c2 with
      | none => simp [hexDecodePairs, h1, h2] at h
      | some lv =>
        cases hr : hexDecodePairs rest with
        | error e => simp [hexDecodePairs, h1, h2, hr] at h
        | ok tl =>
          simp only [hexDecodePairs, h1, h2, hr] at h
          injection h with h
          subst h
          have := hexDecodePairs_length rest tl hr
          simp [this]
          omega

theorem startsWith0x_shape (s : List Char) (h : startsWith0x s = true) :
    ∃ body, s = '0' :: 'x' :: body := by
  cases s with
  | nil => simp [startsWith0x] at h
  | cons a t =>
    cases t with
    | nil => simp [startsWith0x] at h
    | cons b u =>
      simp only [startsWith0x, Bool.and_eq_true, decide_eq_true_eq] at h
      exact ⟨u, by rw [h.1, h.2]⟩

theorem commitmentDeserialize_ok_elim (s : List Char) (c : Commitment)
    (h : commitmentDeserialize s = .ok c) :
    startsWith0x s = true ∧ s.length = COMMITMENT_SIZE * 2 + 2 ∧
      hexDecode (s.drop 2) = .ok c.bytes ∧ c.bytes.length = COMMITMENT_SIZE := by
  unfold commitmentDeserialize at h
  by_cases hcond : startsWith0x s = false ∨ s.length ≠ COMMITMENT_SIZE * 2 + 2
  · rw [if_pos hcond] at h
    exact Except.noConfusion h
  · rw [if_neg hcond] at h
    push_neg at hcond
    obtain ⟨h1, h2⟩ := hcond
    have h1t : startsWith0x s = true := by
      cases hst : startsWith0x s
      · exact absurd hst h1
      · rfl
    cases hdec : hexDecode (s.drop 2) with
    | error e =>
      rw [hdec] at h
      exact Except.noConfusion h
    | ok decoded =>
      rw [hdec] at h
      dsimp only at h
      by_cases hlen : decoded.length = COMMITMENT_SIZE
      · rw [if_pos hlen] at h
        injection h with h
        subst h
        exact ⟨h1t, h2, rfl, hlen⟩
      · rw [if_neg hlen] at h
        exact Except.noConfusion h

theorem commitmentDeserialize_ok_intro (body : List Char)
    (hlen : body.length = COMMITMENT_SIZE * 2)
    (hall : ∀ ch ∈ body, (hexVal ch).isSome) :
    ∃ bs, commitmentDeserialize ('0' :: 'x' :: body) = .ok (Commitment.mk bs) ∧
      hexDecodePairs body = .ok bs := by
  obtain ⟨bs, hbs⟩ := (hexDecodePairs_ok_iff body).mpr ⟨by omega, hall⟩
  have hbl : bs.length = COMMITMENT_SIZE := by
    have := hexDecodePairs_length body bs hbs
    omega
  refine ⟨bs, ?_, hbs⟩
  unfold commitmentDeserialize
  rw [if_neg ?_]
  · have hdrop : ('0' :: 'x' :: body).drop 2 = body := rfl
    rw [hdrop]
    unfold hexDecode
    rw [if_neg (by omega), hbs]
    dsimp only
    rw [if_pos hbl]
  · push_neg
    refine ⟨by simp [startsWith0x], ?_⟩
    simp [hlen]

/-- Claim C4: after subscribe(id, s), has_subscription(id) is true, and a
second subscribe under the same id replaces the prior entry with a fresh
unattached one: the entry found under the id is exactly the new
subscription with no sender, whatever was there before. -/
theorem subscribe_overwrites_with_fresh_entry (clients : Registry) (id : String)
    (s : Subscription) :
    WsClients.has_subscription (WsClients.subscribe clients id s) id = true ∧
    mapLookup (WsClients.subscribe clients id s) id = some (WsClient.new s) := by
  refine ⟨?_, ?_⟩
  · simp [WsClients.has_subscription, WsClients.subscribe, mapLookup_mapInsert_self]
  · simp [WsClients.subscribe, mapLookup_mapInsert_self]

/-- Claim C5: set_sender returns true and sets the entry's outbound channel
when the id is registered (preserving the subscription and every other
entry), and returns false leaving the registry exactly as it was when the
id is unknown. -/
theorem set_sender_sets_or_rejects (clients : Registry) (id : String) (sender : Sender) :
    (mapLookup clients id = none →
      WsClients.set_sender clients id sender = (clients, false)) ∧
    (∀ c, mapLookup clients id = some c →
      (WsClients.set_sender clients id sender).2 = true ∧
      mapLookup (WsClients.set_sender clients id sender).1 id =
        some { c with sender := some sender } ∧
      ∀ k, k ≠ id → mapLookup (WsClients.set_sender clients id sender).1 k =
        mapLookup clients k) := by
  induction clients with
  | nil => simp [WsClients.set_sender, mapLookup]
  | cons hd t ih =>
    obtain ⟨k1, c1⟩ := hd
    by_cases hk : k1 = id
    · subst hk
      constructor
      · intro hnone
        simp [mapLookup] at hnone
      · intro c hc
        simp [mapLookup] at hc
        subst hc
        refine ⟨by simp [WsClients.set_sender], by simp [WsClients.set_sender, mapLookup], ?_⟩
        intro k hkne
        have hne2 : ¬ (k1 = k) := fun h => hkne (Eq.symm h)
        simp [WsClients.set_sender, mapLookup, hne2]
    · constructor
      · intro hnone
        simp only [mapLookup, if_neg hk] at hnone
        simp [WsClients.set_sender, hk, ih.1 hnone]
      · intro c hc
        simp only [mapLookup, if_neg hk] at hc
        obtain ⟨h2a, h2b, h2c⟩ := ih.2 c hc
        refine ⟨by simp [WsClients.set_sender, hk, h2a], ?_, ?_⟩
        · simp [WsClients.set_sender, mapLookup, hk, h2b]
        · intro k hkne
          by_cases hq : k1 = k
          · simp [WsClients.set_sender, mapLookup, hk, hq, hkne]
          · simp [WsClients.set_sender, mapLookup, hk, hq, h2c k hkne]

/-- Witness for Claim C5: on a one-entry registry, attaching under the
registered id succeeds and sets the sender; attaching under an unknown id
returns false and leaves the registry untouched. -/
theorem set_sender_sets_or_rejects_witness :
    WsClients.set_sender
        [("a", WsClient.new (Subscription.mk [Topic.HeaderVerified] []))] "b" (Sender.mk 3) =
      ([("a", WsClient.new (Subscription.mk [Topic.HeaderVerified] []))], false) ∧
    (WsClients.set_sender
        [("a", WsClient.new (Subscription.mk [Topic.HeaderVerified] []))] "a" (Sender.mk 3)).2 = true ∧
    mapLookup (WsClients.set_sender
        [("a", WsClient.new (Subscription.mk [Topic.HeaderVerified] []))] "a" (Sender.mk 3)).1 "a" =
      some (WsClient.mk (Subscription.mk [Topic.HeaderVerified] []) (some (Sender.mk 3))) := by
  refine ⟨(set_sender_sets_or_rejects
      [("a", WsClient.new (Subscription.mk [Topic.HeaderVerified] []))] "b" (Sender.mk 3)).1 rfl,
    ?_, ?_⟩
  · exact ((set_sender_sets_or_rejects
      [("a", WsClient.new (Subscription.mk [Topic.HeaderVerified] []))] "a" (Sender.mk 3)).2
      (WsClient.new (Subscription.mk [Topic.HeaderVerified] [])) rfl).1
  · exact ((set_sender_sets_or_rejects
      [("a", WsClient.new (Subscription.mk [Topic.HeaderVerified] []))] "a" (Sender.mk 3)).2
      (WsClient.new (Subscription.mk [Topic.HeaderVerified] [])) rfl).2.1

/-- Claim C9: the serialized client-facing form of an Error does not depend
on the internal cause (two errors differing only in cause serialize
identically), internal_server_error always carries the fixed generic
message, and request_id is omitted from the serialized field list exactly
when absent. -/
theorem error_serialization_hides_internals :
    (∀ rid c1 c2 code msg,
      Error.serialize (Error.new rid c1 code msg) =
        Error.serialize (Error.new rid c2 code msg)) ∧
    (∀ cause, (Error.internal_server_error cause).message = "Internal Server Error" ∧
      (Error.internal_server_error cause).error_code = ErrorCode.InternalServerError ∧
      (Error.serialize (Error.internal_server_error cause)).map Prod.fst =
        ["error_code", "message"]) ∧
    (∀ c code msg, (Error.serialize (Error.new none c code msg)).map Prod.fst =
      ["error_code", "message"]) ∧
    (∀ rid c code msg, (Error.serialize (Error.new (some rid) c code msg)).map Prod.fst =
      ["request_id", "error_code", "message"]) :=
  ⟨fun _ _ _ _ _ => rfl, fun _ => ⟨rfl, rfl, rfl⟩, fun _ _ _ => rfl, fun _ _ _ _ => rfl⟩

/-- Claim C10: publish leaves the registry unchanged whether it succeeds or
fails: the registry component it returns is the one it was given, so every
lookup and every existence check is the same after the call as before. -/
theorem publish_leaves_registry_unchanged (clients : Registry) (topic : Topic)
    (tryInto : PublishMessage → Except String Message) (message : PublishMessage) :
    (WsClients.publish clients topic tryInto message).1 = clients ∧
    ∀ id, mapLookup (WsClients.publish clients topic tryInto message).1 id =
        mapLookup clients id ∧
      WsClients.has_subscription (WsClients.publish clients topic tryInto message).1 id =
        WsClients.has_subscription clients id :=
  ⟨rfl, fun _ => ⟨rfl, rfl⟩⟩

theorem matchingEvents_snd (clients : Registry) (topic : Topic) (m : Message) :
    ∀ ev ∈ matchingEvents clients topic m, ev.2 = m := by
  intro ev hev
  simp only [matchingEvents, List.mem_filterMap] at hev
  obtain ⟨p, hp, hfp⟩ := hev
  by_cases hs : p.2.is_subscribed topic
  · rw [if_pos hs] at hfp
    cases hsd : p.2.sender with
    | none => rw [hsd] at hfp; exact Option.noConfusion hfp
    | some s0 =>
      rw [hsd] at hfp
      have hfp2 : some (s0, m) = some ev := hfp
      injection hfp2 with hfp3
      rw [← hfp3]
  · rw [if_neg hs] at hfp
    exact Option.noConfusion hfp

/-- Claim C1: when the message serializes, publish performs exactly one
send per registered subscriber whose topic set contains the topic and
which has an attached sender, carrying the serialized form; matching
subscribers without a sender are skipped and non-matching subscribers
receive nothing — the event list is exactly the matching-attached
projection of the registry. -/
theorem publish_delivers_exactly_matching_attached (clients : Registry) (topic : Topic)
    (tryInto : PublishMessage → Except String Message) (message : PublishMessage)
    (m : Message) (h : tryInto message = .ok m) :
    (WsClients.publish clients topic tryInto message).2 =
      .ok (matchingEvents clients topic m) ∧
    ∀ ev, ev ∈ matchingEvents clients topic m ↔
      (ev.2 = m ∧ ∃ p ∈ clients, p.2.is_subscribed topic = true ∧
        p.2.sender = some ev.1) := by
  refine ⟨publishRun_ok clients topic tryInto message m h, ?_⟩
  rintro ⟨s, mv⟩
  constructor
  · intro hev
    simp only [matchingEvents, List.mem_filterMap] at hev
    obtain ⟨p, hp, hfp⟩ := hev
    by_cases hs : p.2.is_subscribed topic
    · rw [if_pos hs] at hfp
      cases hsd : p.2.sender with
      | none => rw [hsd] at hfp; exact Option.noConfusion hfp
      | some s0 =>
        rw [hsd] at hfp
        have hfp2 : some (s0, m) = some (s, mv) := hfp
        injection hfp2 with hfp3
        injection hfp3 with ha hb
        exact ⟨hb.symm, p, hp, hs, by rw [hsd, ha]⟩
    · rw [if_neg hs] at hfp
      exact Option.noConfusion hfp
  · rintro ⟨hm, p, hp, hs, hsd⟩
    subst hm
    exact mem_matchingEvents clients topic _ s p hp hs hsd

/-- Witness for Claim C1: three subscribers — matching and attached,
non-matching, matching but unattached — produce exactly one send event. -/
theorem publish_delivers_exactly_matching_attached_witness :
    (WsClients.publish
        [("a", WsClient.mk (Subscription.mk [Topic.HeaderVerified] []) (some (Sender.mk 0))),
         ("b", WsClient.mk (Subscription.mk [Topic.ConfidenceAchieved] []) (some (Sender.mk 1))),
         ("c", WsClient.mk (Subscription.mk [Topic.HeaderVerified] []) none)]
        Topic.HeaderVerified (fun _ => .ok "frame")
        (PublishMessage.HeaderVerified (HeaderMessage.mk 42
          (Header.mk 0 0 42 0 0 (Extension.mk 1 1 none [] 0))))).2 =
      .ok (matchingEvents
        [("a", WsClient.mk (Subscription.mk [Topic.HeaderVerified] []) (some (Sender.mk 0))),
         ("b", WsClient.mk (Subscription.mk [Topic.ConfidenceAchieved] []) (some (Sender.mk 1))),
         ("c", WsClient.mk (Subscription.mk [Topic.HeaderVerified] []) none)]
        Topic.HeaderVerified "frame") ∧
    matchingEvents
        [("a", WsClient.mk (Subscription.mk [Topic.HeaderVerified] []) (some (Sender.mk 0))),
         ("b", WsClient.mk (Subscription.mk [Topic.ConfidenceAchieved] []) (some (Sender.mk 1))),
         ("c", WsClient.mk (Subscription.mk [Topic.HeaderVerified] []) none)]
        Topic.HeaderVerified "frame" = [(Sender.mk 0, "frame")] :=
  ⟨(publish_delivers_exactly_matching_attached
      [("a", WsClient.mk (Subscription.mk [Topic.HeaderVerified] []) (some (Sender.mk 0))),
       ("b", WsClient.mk (Subscription.mk [Topic.ConfidenceAchieved] []) (some (Sender.mk 1))),
       ("c", WsClient.mk (Subscription.mk [Topic.HeaderVerified] []) none)]
      Topic.HeaderVerified (fun _ => .ok "frame")
      (PublishMessage.HeaderVerified (HeaderMessage.mk 42
        (Header.mk 0 0 42 0 0 (Extension.mk 1 1 none [] 0)))) "frame" rfl).1,
   rfl⟩

/-- Claim C2 counterexample: the source serializes inside the per-client
loop, so with two matching attached subscribers the message is serialized
twice, not once; and when serialization would fail but no subscriber
matches the topic, publish returns success instead of the claimed hard
error, because serialization is never attempted. -/
theorem publish_single_serialization_cex :
    (WsClients.publishRun
        [("a", WsClient.mk (Subscription.mk [Topic.HeaderVerified] []) (some (Sender.mk 0))),
         ("b", WsClient.mk (Subscription.mk [Topic.HeaderVerified] []) (some (Sender.mk 1)))]
        Topic.HeaderVerified (fun _ => .ok "frame")
        (PublishMessage.HeaderVerified (HeaderMessage.mk 7
          (Header.mk 0 0 7 0 0 (Extension.mk 1 1 none [] 0))))).2 = 2 ∧
    (WsClients.publish
        [("a", WsClient.mk (Subscription.mk [Topic.ConfidenceAchieved] []) (some (Sender.mk 0)))]
        Topic.HeaderVerified (fun _ => .error "boom")
        (PublishMessage.HeaderVerified (HeaderMessage.mk 7
          (Header.mk 0 0 7 0 0 (Extension.mk 1 1 none [] 0))))).2 = .ok [] :=
  ⟨rfl, rfl⟩

/-- Claim C2 (amended): publish serializes the message once per matching
subscriber (attached or not), each call of the deterministic serializer
yielding the same serialized form, which is the form carried by every send
event; if serialization fails and at least one subscriber matches the
topic, the whole call returns that error, while with no matching
subscriber serialization is never attempted and the call returns success. -/
theorem publish_serializes_per_matching_subscriber (clients : Registry) (topic : Topic)
    (tryInto : PublishMessage → Except String Message) (message : PublishMessage) :
    (∀ m, tryInto message = .ok m →
      (WsClients.publishRun clients topic tryInto message).2 =
        (clients.filter (fun p => p.2.is_subscribed topic)).length ∧
      (WsClients.publish clients topic tryInto message).2 =
        .ok (matchingEvents clients topic m) ∧
      ∀ ev ∈ matchingEvents clients topic m, ev.2 = m) ∧
    (∀ e, tryInto message = .error e →
      (clients.any (fun p => p.2.is_subscribed topic) = true →
        (WsClients.publish clients topic tryInto message).2 = .error e) ∧
      (clients.any (fun p => p.2.is_subscribed topic) = false →
        WsClients.publishRun clients topic tryInto message = (.ok [], 0))) := by
  constructor
  · intro m hm
    exact ⟨publishRun_count_ok clients topic tryInto message m hm,
      publishRun_ok clients topic tryInto message m hm,
      matchingEvents_snd clients topic m⟩
  · intro e he
    exact ⟨publishRun_error_of_match clients topic tryInto message e he,
      publishRun_no_match clients topic tryInto message⟩

/-- Witness for Claim C2 (amended): a registry with two matching attached
entries serializes twice and sends the same frame to both; with a failing
serializer and a matching entry, the call errors. -/
theorem publish_serializes_per_matching_subscriber_witness :
    (WsClients.publishRun
        [("a", WsClient.mk (Subscription.mk [Topic.HeaderVerified] []) (some (Sender.mk 0))),
         ("b", WsClient.mk (Subscription.mk [Topic.HeaderVerified] []) (some (Sender.mk 1)))]
        Topic.HeaderVerified (fun _ => .ok "frame")
        (PublishMessage.HeaderVerified (HeaderMessage.mk 7
          (Header.mk 0 0 7 0 0 (Extension.mk 1 1 none [] 0))))).2 =
      (List.filter (fun p => p.2.is_subscribed Topic.HeaderVerified)
        [("a", WsClient.mk (Subscription.mk [Topic.HeaderVerified] []) (some (Sender.mk 0))),
         ("b", WsClient.mk (Subscription.mk [Topic.HeaderVerified] []) (some (Sender.mk 1)))]).length ∧
    (WsClients.publish
        [("a", WsClient.mk (Subscription.mk [Topic.HeaderVerified] []) (some (Sender.mk 0)))]
        Topic.HeaderVerified (fun _ => .error "boom")
        (PublishMessage.HeaderVerified (HeaderMessage.mk 7
          (Header.mk 0 0 7 0 0 (Extension.mk 1 1 none [] 0))))).2 = .error "boom" :=
  ⟨((publish_serializes_per_matching_subscriber
      [("a", WsClient.mk (Subscription.mk [Topic.HeaderVerified] []) (some (Sender.mk 0))),
       ("b", WsClient.mk (Subscription.mk [Topic.HeaderVerified] []) (some (Sender.mk 1)))]
      Topic.HeaderVerified (fun _ => .ok "frame")
      (PublishMessage.HeaderVerified (HeaderMessage.mk 7
        (Header.mk 0 0 7 0 0 (Extension.mk 1 1 none [] 0))))).1 "frame" rfl).1,
   ((publish_serializes_per_matching_subscriber
      [("a", WsClient.mk (Subscription.mk [Topic.HeaderVerified] []) (some (Sender.mk 0)))]
      Topic.HeaderVerified (fun _ => .error "boom")
      (PublishMessage.HeaderVerified (HeaderMessage.mk 7
        (Header.mk 0 0 7 0 0 (Extension.mk 1 1 none [] 0))))).2 "boom" rfl).1 rfl⟩

/-- Claim C3: when some matching subscriber's attached channel is closed,
publish still returns success with the full matching-attached event list
(independently of channel states, so the per-subscriber enqueue failure
never surfaces), and applying the events enqueues the frame on the channel
of every other matching attached subscriber whose channel is open. -/
theorem publish_swallows_dead_channel (clients : Registry) (topic : Topic)
    (tryInto : PublishMessage → Except String Message) (message : PublishMessage)
    (m : Message) (st : ChanState) (id0 : String) (c0 : WsClient) (s0 : Sender)
    (hser : tryInto message = .ok m)
    (hmem : (id0, c0) ∈ clients)
    (hsub : c0.is_subscribed topic = true)
    (hsend : c0.sender = some s0)
    (hdead : chanOpen st s0.chan = false) :
    (WsClients.publish clients topic tryInto message).2 =
      .ok (matchingEvents clients topic m) ∧
    ∀ (id1 : String) (c1 : WsClient) (s1 : Sender),
      (id1, c1) ∈ clients → c1.is_subscribed topic = true → c1.sender = some s1 →
      chanOpen st s1.chan = true →
      m ∈ chanBuf (applyEvents st (matchingEvents clients topic m)) s1.chan := by
  refine ⟨publishRun_ok clients topic tryInto message m hser, ?_⟩
  intro id1 c1 s1 hmem1 hsub1 hsend1 hopen1
  have hev : (s1, m) ∈ matchingEvents clients topic m :=
    mem_matchingEvents clients topic m s1 (id1, c1) hmem1 hsub1 hsend1
  exact applyEvents_delivers st (matchingEvents clients topic m) s1 m hev hopen1

/-- Witness for Claim C3: subscriber a's channel 0 is closed, subscriber
b's channel 1 is open; publish succeeds and b's channel receives the
frame. -/
theorem publish_swallows_dead_channel_witness :
    (WsClients.publish
        [("a", WsClient.mk (Subscription.mk [Topic.HeaderVerified] []) (some (Sender.mk 0))),
         ("b", WsClient.mk (Subscription.mk [Topic.HeaderVerified] []) (some (Sender.mk 1)))]
        Topic.HeaderVerified (fun _ => .ok "frame")
        (PublishMessage.HeaderVerified (HeaderMessage.mk 7
          (Header.mk 0 0 7 0 0 (Extension.mk 1 1 none [] 0))))).2 =
      .ok (matchingEvents
        [("a", WsClient.mk (Subscription.mk [Topic.HeaderVerified] []) (some (Sender.mk 0))),
         ("b", WsClient.mk (Subscription.mk [Topic.HeaderVerified] []) (some (Sender.mk 1)))]
        Topic.HeaderVerified "frame") ∧
    "frame" ∈ chanBuf (applyEvents [(0, Chan.mk true []), (1, Chan.mk false [])]
      (matchingEvents
        [("a", WsClient.mk (Subscription.mk [Topic.HeaderVerified] []) (some (Sender.mk 0))),
         ("b", WsClient.mk (Subscription.mk [Topic.HeaderVerified] []) (some (Sender.mk 1)))]
        Topic.HeaderVerified "frame")) 1 := by
  have h := publish_swallows_dead_channel
    [("a", WsClient.mk (Subscription.mk [Topic.HeaderVerified] []) (some (Sender.mk 0))),
     ("b", WsClient.mk (Subscription.mk [Topic.HeaderVerified] []) (some (Sender.mk 1)))]
    Topic.HeaderVerified (fun _ => .ok "frame")
    (PublishMessage.HeaderVerified (HeaderMessage.mk 7
      (Header.mk 0 0 7 0 0 (Extension.mk 1 1 none [] 0))))
    "frame" [(0, Chan.mk true []), (1, Chan.mk false [])]
    "a" (WsClient.mk (Subscription.mk [Topic.HeaderVerified] []) (some (Sender.mk 0)))
    (Sender.mk 0) rfl (by simp) rfl rfl rfl
  exact ⟨h.1, h.2 "b"
    (WsClient.mk (Subscription.mk [Topic.HeaderVerified] []) (some (Sender.mk 1)))
    (Sender.mk 1) (by simp) rfl rfl rfl⟩

/-- Claim C6: decoding a raw header extension dispatches on the variant
tag, copies rows, cols and app_lookup through unchanged, delegates the
flat commitment bytes to the commitment codec, sets data_root to the
always-present V1 value or the optional V2 value, and propagates a codec
failure as the failure of the whole decode with no partial result. -/
theorem header_extension_decode_dispatch (ext : HeaderExtension) :
    (∀ e, from_slice ext.rawCommitment = .error e →
      Extension.tryFromHeaderExtension ext = .error e) ∧
    (∀ cs, from_slice ext.rawCommitment = .ok cs →
      Extension.tryFromHeaderExtension ext =
        .ok (Extension.mk ext.rawRows ext.rawCols ext.rawDataRoot
          (cs.map Commitment.mk) ext.rawAppLookup)) := by
  cases ext with
  | V1 v1 =>
    refine ⟨fun e he => ?_, fun cs hcs => ?_⟩
    · simp only [HeaderExtension.rawCommitment] at he
      simp [Extension.tryFromHeaderExtension, he]
    · simp only [HeaderExtension.rawCommitment] at hcs
      simp [Extension.tryFromHeaderExtension, hcs, HeaderExtension.rawRows,
        HeaderExtension.rawCols, HeaderExtension.rawDataRoot,
        HeaderExtension.rawAppLookup]
  | V2 v2 =>
    refine ⟨fun e he => ?_, fun cs hcs => ?_⟩
    · simp only [HeaderExtension.rawCommitment] at he
      simp [Extension.tryFromHeaderExtension, he]
    · simp only [HeaderExtension.rawCommitment] at hcs
      simp [Extension.tryFromHeaderExtension, hcs, HeaderExtension.rawRows,
        HeaderExtension.rawCols, HeaderExtension.rawDataRoot,
        HeaderExtension.rawAppLookup]

/-- Witness for Claim C6: a V1 extension with one commitment worth of
bytes decodes to the copied-through fields, and a V2 extension with a
one-byte blob fails with the codec's length error. -/
theorem header_extension_decode_dispatch_witness :
    Extension.tryFromHeaderExtension (HeaderExtension.V1
        (ExtensionV1.mk 7 (KateCommitmentV1.mk 1 2 9 (List.replicate 48 5)))) =
      .ok (Extension.mk 1 2 (some 9) ([List.replicate 48 5].map Commitment.mk) 7) ∧
    Extension.tryFromHeaderExtension (HeaderExtension.V2
        (ExtensionV2.mk 7 (KateCommitmentV2.mk 1 2 none [5]))) =
      .error "Invalid commitments length" :=
  ⟨(header_extension_decode_dispatch (HeaderExtension.V1
      (ExtensionV1.mk 7 (KateCommitmentV1.mk 1 2 9 (List.replicate 48 5))))).2
      [List.replicate 48 5] rfl,
   (header_extension_decode_dispatch (HeaderExtension.V2
      (ExtensionV2.mk 7 (KateCommitmentV2.mk 1 2 none [5])))).1
      "Invalid commitments length" rfl⟩

/-- Claim C7 counterexample: a 0x string whose 96-character body is
uppercase hex is accepted by the deserializer (the hex codec it delegates
to is case-insensitive), refuting the claim that only lowercase-hex bodies
deserialize successfully. -/
theorem commitment_deserialize_uppercase_cex :
    commitmentDeserialize ('0' :: 'x' :: List.replicate 96 'A') =
      .ok (Commitment.mk (List.replicate 48 170)) := rfl

/-- Claim C7 (amended): deserializing a Commitment succeeds exactly for
strings of the form 0x followed by 2 * COMMITMENT_SIZE hex digits, with
both lowercase and uppercase digits accepted; every other form — wrong
length, missing 0x, non-hex body — is a decode error, and in particular
the wrong-length string 0x1234 fails with the length/prefix error. -/
theorem commitment_deserialize_accepts_exact_shape :
    (∀ s : List Char,
      (∃ c, commitmentDeserialize s = .ok c) ↔
        (∃ body, s = '0' :: 'x' :: body ∧ body.length = COMMITMENT_SIZE * 2 ∧
          ∀ ch ∈ body, (hexVal ch).isSome)) ∧
    commitmentDeserialize ['0', 'x', '1', '2', '3', '4'] =
      .error "Expected a hex string of correct length with 0x prefix" := by
  constructor
  · intro s
    constructor
    · rintro ⟨c, hc⟩
      obtain ⟨h1, h2, h3, _⟩ := commitmentDeserialize_ok_elim s c hc
      obtain ⟨body, rfl⟩ := startsWith0x_shape s h1
      refine ⟨body, rfl, ?_, ?_⟩
      · simp only [List.length_cons] at h2
        omega
      · have hdrop : ('0' :: 'x' :: body).drop 2 = body := rfl
        rw [hdrop] at h3
        unfold hexDecode at h3
        by_cases hodd : body.length % 2 = 1
        · rw [if_pos hodd] at h3
          exact Except.noConfusion h3
        · rw [if_neg hodd] at h3
          exact ((hexDecodePairs_ok_iff body).mp ⟨c.bytes, h3⟩).2
    · rintro ⟨body, rfl, hlen, hall⟩
      obtain ⟨bs, hok, -⟩ := commitmentDeserialize_ok_intro body hlen hall
      exact ⟨Commitment.mk bs, hok⟩
  · rfl

/-- Claim C8 counterexample: deserializing a valid uppercase-hex textual
form and re-serializing does not reproduce the input — the serializer
emits lowercase — refuting the unconditional deserialize-then-serialize
round-trip. -/
theorem commitment_roundtrip_cex :
    commitmentDeserialize ('0' :: 'x' :: List.replicate 96 'B') =
      .ok (Commitment.mk (List.replicate 48 187)) ∧
    commitmentSerialize (Commitment.mk (List.replicate 48 187)) ≠
      '0' :: 'x' :: List.replicate 96 'B' := by
  refine ⟨rfl, ?_⟩
  intro h
  have : ('0' :: 'x' :: List.replicate 96 'b' : List Char) =
      '0' :: 'x' :: List.replicate 96 'B' := h
  simp [List.replicate] at this

/-- Claim C8 (amended): serializing a commitment (48 bytes) and
deserializing the result yields the original commitment; deserializing a
valid textual form and re-serializing reproduces the input exactly when
the input contains no uppercase hex digits — in general re-serialization
yields the lowercase form of the input. -/
theorem commitment_hex_roundtrip :
    (∀ c : Commitment, c.bytes.length = COMMITMENT_SIZE → (∀ b ∈ c.bytes, b < 256) →
      commitmentDeserialize (commitmentSerialize c) = .ok c) ∧
    (∀ (s : List Char) (c : Commitment), commitmentDeserialize s = .ok c →
      (∀ ch ∈ s, ¬('A' ≤ ch ∧ ch ≤ 'F')) → commitmentSerialize c = s) := by
  constructor
  · intro c hlen hbytes
    unfold commitmentSerialize commitmentDeserialize
    rw [if_neg ?_]
    · have hdrop : ('0' :: 'x' :: hexEncode c.bytes).drop 2 = hexEncode c.bytes := rfl
      rw [hdrop, hexDecode_hexEncode c.bytes hbytes]
      dsimp only
      rw [if_pos hlen]
    · push_neg
      refine ⟨by simp [startsWith0x], ?_⟩
      simp only [List.length_cons, hexEncode_length, hlen]
      omega
  · intro s c hc hlower
    obtain ⟨h1, _, h3, _⟩ := commitmentDeserialize_ok_elim s c hc
    obtain ⟨body, rfl⟩ := startsWith0x_shape s h1
    have hdrop : ('0' :: 'x' :: body).drop 2 = body := rfl
    rw [hdrop] at h3
    unfold hexDecode at h3
    by_cases hodd : body.length % 2 = 1
    · rw [if_pos hodd] at h3
      exact Except.noConfusion h3
    · rw [if_neg hodd] at h3
      have henc := hexEncode_hexDecodePairs body c.bytes h3
        (fun ch hch => hlower ch (by simp [hch]))
      unfold commitmentSerialize
      rw [henc]

/-- Witness for Claim C8 (amended): the all-255 commitment serializes to
0x followed by 96 f characters and deserializes back; the lowercase string
re-serializes to itself. -/
theorem commitment_hex_roundtrip_witness :
    commitmentDeserialize (commitmentSerialize (Commitment.mk (List.replicate 48 255))) =
      .ok (Commitment.mk (List.replicate 48 255)) ∧
    commitmentSerialize (Commitment.mk (List.replicate 48 255)) =
      '0' :: 'x' :: List.replicate 96 'f' := by
  constructor
  · exact commitment_hex_roundtrip.1 (Commitment.mk (List.replicate 48 255))
      (by simp [COMMITMENT_SIZE])
      (by intro b hb; rw [List.eq_of_mem_replicate hb]; omega)
  · exact commitment_hex_roundtrip.2 ('0' :: 'x' :: List.replicate 96 'f')
      (Commitment.mk (List.replicate 48 255)) rfl (by decide)

end V2
